import Mathlib

/-!
Shallow embedding of the `TransactionAnalyzer` class of `src/index.js`
(the same class also appears in `src/unnamed/part_000`).

Modelling conventions:

* A JS number that may be NaN is modelled as `Option ℚ`, with `none` playing
  the role of NaN.  The `parseFloat` coercion of a record's
  `transaction_amount` field is modelled by storing the coercion result in the
  record directly: `some q` when the stored text coerces to the number `q`,
  `none` when it does not (`parseFloat` yields NaN).  JS addition and relational
  comparison on such values propagate NaN (`jadd`) respectively return false
  on NaN (`jsGeNum`, `jsLeNum`).
* A parsed `Date` is modelled by the components its accessors return —
  `getFullYear`, the 0-indexed `getMonth` and `getDate` — together with its
  timestamp (`valueOf`), which is what the relational operators `<=`, `>=`, `<`
  compare on `Date` objects.  Per the data model, the `transaction_date` field
  of a record is convertible to a calendar date, so the record stores a
  `JsDate` (a valid `getMonth` value always lies in `Fin 12`).
* The optional numeric arguments `year`, `month`, `day` of
  `calculateTotalAmountByDate` are modelled as `Option Int`: `none` is an
  absent (`undefined`) argument.  In JS, a relational comparison against
  `undefined` is false (`jsLt`, `jsGt`), and `!x` on a number-or-undefined
  argument is true exactly for `undefined` and `0` (`jsFalsy`).
-/

structure JsDate where
  year : Int
  month0 : Fin 12
  day : Nat
  ts : Int
  deriving DecidableEq, Repr

structure Transaction where
  transaction_id : String
  transaction_date : JsDate
  transaction_amount : Option ℚ
  transaction_type : String
  merchant_name : String
  transaction_description : String
  deriving DecidableEq, Repr

/-- JS `+` on numbers where `none` is NaN: NaN poisons the sum. -/
def jadd : Option ℚ → Option ℚ → Option ℚ
  | some a, some b => some (a + b)
  | _, _ => none

/-- Repeated JS `+=` starting from `0`. -/
def jsum (l : List (Option ℚ)) : Option ℚ := l.foldl jadd (some 0)

/-- JS `/` of a possibly-NaN total by a (positive) integer count. -/
def jdiv (a : Option ℚ) (n : Nat) : Option ℚ := a.map (fun q => q / (n : ℚ))

/-- JS `x < b` where `x` may be `undefined` (comparison with undefined is false). -/
def jsLt (a : Option Int) (b : Int) : Bool :=
  match a with
  | none => false
  | some x => decide (x < b)

/-- JS `x > b` where `x` may be `undefined`. -/
def jsGt (a : Option Int) (b : Int) : Bool :=
  match a with
  | none => false
  | some x => decide (b < x)

/-- JS `!x` on a number-or-undefined argument: true for `undefined` and `0`. -/
def jsFalsy (a : Option Int) : Bool :=
  match a with
  | none => true
  | some x => decide (x = 0)

/-- JS `x >= b` where `x` may be NaN (comparison with NaN is false). -/
def jsGeNum (a : Option ℚ) (b : ℚ) : Bool :=
  match a with
  | none => false
  | some x => decide (b ≤ x)

/-- JS `x <= b` where `x` may be NaN. -/
def jsLeNum (a : Option ℚ) (b : ℚ) : Bool :=
  match a with
  | none => false
  | some x => decide (x ≤ b)

/-- `addTransaction(newTransaction)`: `this.transactions.push(newTransaction)`. -/
def addTransaction (txs : List Transaction) (newTransaction : Transaction) :
    List Transaction :=
  txs ++ [newTransaction]

/-- `getAllTransactions()`: `return this.transactions`. -/
def getAllTransactions (txs : List Transaction) : List Transaction := txs

/-- `getUniqueTransactionType()`: a `Set` accumulates each record's
`transaction_type` (insertion order preserved, re-adding a present element is a
no-op) and is returned as an array. -/
def getUniqueTransactionType (txs : List Transaction) : List String :=
  txs.foldl
    (fun uniqueTypes t =>
      if t.transaction_type ∈ uniqueTypes then uniqueTypes
      else uniqueTypes ++ [t.transaction_type])
    []

/-- `calculateTotalAmount()`: the loop iterates over `analyzer["transactions"]`
— the process-global `analyzer` instance — not over `this.transactions`, so the
method takes both the receiver's list and the global instance's list and reads
only the latter. -/
def calculateTotalAmount (selfTxs analyzerTxs : List Transaction) : Option ℚ :=
  analyzerTxs.foldl (fun totalForAllTime t => jadd totalForAllTime t.transaction_amount)
    (some 0)

/-- The validation `month < 1 || month > 12 || day < 1 || day > 31` of
`calculateTotalAmountByDate` (comparisons against an absent argument are false). -/
def dateInvalid (month day : Option Int) : Bool :=
  jsLt month 1 || jsGt month 12 || jsLt day 1 || jsGt day 31

/-- The `isSameDate` closure of `calculateTotalAmountByDate`:
`(!year || d.getFullYear() === year) && (!month || d.getMonth() === month - 1)
&& (!day || d.getDate() === day)`.  A falsy component short-circuits to true;
a truthy `month` (necessarily nonzero) compares against the 0-indexed
`getMonth` plus the `-1` adjustment. -/
def isSameDate (transactionDate : JsDate) (year month day : Option Int) : Bool :=
  (jsFalsy year || year == some transactionDate.year) &&
  (jsFalsy month || month == some (((transactionDate.month0 : Nat) : Int) + 1)) &&
  (jsFalsy day || day == some ((transactionDate.day : Nat) : Int))

/-- Result of `calculateTotalAmountByDate`: whether `console.error` was invoked,
and the returned number. -/
structure TotalByDateResult where
  errorReported : Bool
  total : Option ℚ
  deriving DecidableEq, Repr

/-- `calculateTotalAmountByDate(year, month, day)`. -/
def calculateTotalAmountByDate (txs : List Transaction) (year month day : Option Int) :
    TotalByDateResult :=
  if dateInvalid month day then ⟨true, some 0⟩
  else
    ⟨false,
      txs.foldl
        (fun totalAmount t =>
          if isSameDate t.transaction_date year month day then
            jadd totalAmount t.transaction_amount
          else totalAmount)
        (some 0)⟩

/-- `getTransactionsInDateRange(startDate, endDate)`: both bounds are parsed by
`new Date(...)`; the embedding receives the parsed timestamps and filters by
`transactionDate >= start && transactionDate <= end`. -/
def getTransactionsInDateRange (txs : List Transaction) (startTs endTs : Int) :
    List Transaction :=
  txs.filter (fun t =>
    decide (startTs ≤ t.transaction_date.ts) && decide (t.transaction_date.ts ≤ endTs))

/-- `calculateAverageTransactionAmount()`. -/
def calculateAverageTransactionAmount (txs : List Transaction) : Option ℚ :=
  if txs.length = 0 then some 0
  else
    jdiv (txs.foldl (fun accumulator t => jadd accumulator t.transaction_amount) (some 0))
      txs.length

/-- `getTransactionsByAmountRange(minAmount, maxAmount)`: inclusive bounds on
the `parseFloat`-coerced amount; a NaN amount fails both comparisons. -/
def getTransactionsByAmountRange (txs : List Transaction) (minAmount maxAmount : ℚ) :
    List Transaction :=
  txs.filter (fun t =>
    jsGeNum t.transaction_amount minAmount && jsLeNum t.transaction_amount maxAmount)

/-- `calculateTotalDebitAmount()`: `reduce` over `this.transactions`, adding the
coerced amount only when `transaction_type === 'debit'`. -/
def calculateTotalDebitAmount (txs : List Transaction) : Option ℚ :=
  txs.foldl
    (fun total t =>
      if t.transaction_type == "debit" then jadd total t.transaction_amount else total)
    (some 0)

/-- One step of the month-bucket construction: `transactionCountByMonth[month]++`. -/
def bumpMonth (counts : Fin 12 → Nat) (m : Fin 12) : Fin 12 → Nat :=
  fun k => if k = m then counts k + 1 else counts k

/-- The bucket object of `findMostTransactionsMonth`, as its count function. -/
def countByMonth (txs : List Transaction) : Fin 12 → Nat :=
  txs.foldl (fun counts t => bumpMonth counts t.transaction_date.month0) (fun _ => 0)

/-- The bucket object of `findMostDebitTransactionMonth`: only records with
`transaction_type === 'debit'` are bucketed. -/
def countDebitByMonth (txs : List Transaction) : Fin 12 → Nat :=
  txs.foldl
    (fun counts t =>
      if t.transaction_type == "debit" then bumpMonth counts t.transaction_date.month0
      else counts)
    (fun _ => 0)

/-- The keys of the bucket object, in the order `for (const month in ...)`
enumerates them: a key exists exactly when its bucket was incremented at least
once, and JS enumerates integer-like keys in ascending numeric order. -/
def presentKeys (counts : Fin 12 → Nat) : List (Fin 12) :=
  (List.finRange 12).filter (fun m => counts m ≠ 0)

/-- One iteration of the selection loop: update `(mostTransactionsMonth,
maxTransactionCount)` when the bucket count is strictly greater. -/
def selectStep (counts : Fin 12 → Nat) (acc : Option (Fin 12) × Nat) (m : Fin 12) :
    Option (Fin 12) × Nat :=
  if counts m > acc.2 then (some m, counts m) else acc

/-- The selection loop of the `findMost...Month` methods, starting from
`(null, 0)`. -/
def selectMonth (counts : Fin 12 → Nat) : Option (Fin 12) :=
  ((presentKeys counts).foldl (selectStep counts) (none, 0)).1

/-- `findMostTransactionsMonth()`: `parseInt(mostTransactionsMonth) + 1`.
When the selected month is still `null`, `parseInt(null) + 1` is NaN, modelled
as `none`; otherwise the 0-indexed month plus one. -/
def findMostTransactionsMonth (txs : List Transaction) : Option Nat :=
  (selectMonth (countByMonth txs)).map (fun m => (m : Nat) + 1)

/-- `findMostDebitTransactionMonth()`: same selection over the debit buckets. -/
def findMostDebitTransactionMonth (txs : List Transaction) : Option Nat :=
  (selectMonth (countDebitByMonth txs)).map (fun m => (m : Nat) + 1)

/-- Modelled from the spec: "the set of distinct `type` values, materialized as
a sequence in first-seen insertion order" — keep the first occurrence of each
value and drop every later duplicate. -/
def specFirstSeen : List String → List String
  | [] => []
  | s :: l => s :: specFirstSeen (l.filter (fun x => x ≠ s))
termination_by l => l.length
decreasing_by
  simp only [List.length_cons]
  exact Nat.lt_succ_of_le (List.length_filter_le _ _)

/-- Modelled from the claim C1's words: an absent, falsy, or zero date
component is a wildcard, and the operation sums the amounts of every record
whose date agrees with the non-wildcard components (no validation gate; the
component matcher itself is the code's `isSameDate`, whose falsy test already
treats `0` and `undefined` as wildcards). -/
def specWildcardTotal (txs : List Transaction) (year month day : Option Int) :
    Option ℚ :=
  jsum ((txs.filter (fun t => isSameDate t.transaction_date year month day)).map
    (fun t => t.transaction_amount))

/-! ### Algebra of NaN-propagating sums -/

theorem jadd_zero_left (a : Option ℚ) : jadd (some 0) a = a := by
  cases a <;> simp [jadd]

theorem jadd_zero_right (a : Option ℚ) : jadd a (some 0) = a := by
  cases a <;> simp [jadd]

theorem jadd_comm (a b : Option ℚ) : jadd a b = jadd b a := by
  cases a <;> cases b <;> simp [jadd, add_comm]

theorem jadd_assoc (a b c : Option ℚ) : jadd (jadd a b) c = jadd a (jadd b c) := by
  cases a <;> cases b <;> cases c <;> simp [jadd, add_assoc]

theorem jadd_left_comm (a b c : Option ℚ) : jadd a (jadd b c) = jadd b (jadd a c) := by
  rw [← jadd_assoc, jadd_comm a b, jadd_assoc]

theorem foldl_jadd (l : List (Option ℚ)) :
    ∀ a : Option ℚ, l.foldl jadd a = jadd a (jsum l) := by
  induction l with
  | nil => intro a; simp [jsum, jadd_zero_right]
  | cons x l ih =>
    intro a
    have hx : jsum (x :: l) = jadd x (jsum l) := by
      show (x :: l).foldl jadd (some 0) = _
      rw [List.foldl_cons, ih (jadd (some 0) x), jadd_zero_left]
    rw [hx, List.foldl_cons, ih (jadd a x), jadd_assoc]

theorem jsum_cons (x : Option ℚ) (l : List (Option ℚ)) :
    jsum (x :: l) = jadd x (jsum l) := by
  show (x :: l).foldl jadd (some 0) = _
  rw [List.foldl_cons, foldl_jadd, jadd_zero_left]

theorem jsum_eq_sum (l : List (Option ℚ)) (h : ∀ x ∈ l, x ≠ none) :
    jsum l = some ((l.filterMap id).sum) := by
  induction l with
  | nil => simp [jsum]
  | cons x l ih =>
    cases x with
    | none => exact absurd rfl (h none (List.mem_cons_self none l))
    | some a =>
      rw [jsum_cons, ih (fun y hy => h y (List.mem_cons_of_mem _ hy))]
      simp [jadd]

theorem jsum_split {α : Type} (p : α → Bool) (f : α → Option ℚ) (l : List α) :
    jsum (l.map f) =
      jadd (jsum ((l.filter p).map f)) (jsum ((l.filter (fun x => !(p x))).map f)) := by
  induction l with
  | nil => simp [jsum, jadd]
  | cons x l ih =>
    cases hp : p x
    · simp only [List.map_cons, List.filter_cons, hp, Bool.not_false, if_neg, if_pos,
        Bool.false_eq_true, ite_false, ite_true, List.map_cons]
      rw [jsum_cons, ih, jsum_cons, jadd_left_comm]
    · simp only [List.map_cons, List.filter_cons, hp, Bool.not_true,
        Bool.false_eq_true, ite_false, ite_true, List.map_cons]
      rw [jsum_cons, ih, jsum_cons, jadd_assoc]

/-- The guarded accumulation loops (`reduce` with an `if`, the `forEach` of
`calculateTotalAmountByDate`) compute the NaN-propagating sum of the amounts of
the records passing the guard. -/
theorem foldl_amount_guard (p : Transaction → Bool) (txs : List Transaction) :
    ∀ a : Option ℚ,
      txs.foldl
          (fun tot t => if p t then jadd tot t.transaction_amount else tot) a =
        jadd a (jsum ((txs.filter p).map (fun t => t.transaction_amount))) := by
  induction txs with
  | nil => intro a; simp [jsum, jadd_zero_right]
  | cons t txs ih =>
    intro a
    cases hp : p t
    · simp only [List.foldl_cons, hp, Bool.false_eq_true, ite_false, List.filter_cons]
      rw [ih]
    · simp only [List.foldl_cons, hp, ite_true, List.filter_cons, List.map_cons]
      rw [ih, jsum_cons, jadd_assoc]

/-- The unguarded accumulation loops compute the NaN-propagating sum of all
amounts. -/
theorem foldl_amount (txs : List Transaction) :
    ∀ a : Option ℚ,
      txs.foldl (fun tot t => jadd tot t.transaction_amount) a =
        jadd a (jsum (txs.map (fun t => t.transaction_amount))) := by
  induction txs with
  | nil => intro a; simp [jsum, jadd_zero_right]
  | cons t txs ih =>
    intro a
    simp only [List.foldl_cons, List.map_cons]
    rw [ih, jsum_cons, jadd_assoc]

/-! ### Month buckets and the strict-max selection loop -/

theorem countByMonth_eq (txs : List Transaction) :
    ∀ (counts : Fin 12 → Nat) (m : Fin 12),
      txs.foldl (fun counts t => bumpMonth counts t.transaction_date.month0) counts m =
        counts m + txs.countP (fun t => decide (t.transaction_date.month0 = m)) := by
  induction txs with
  | nil => intro counts m; simp
  | cons t txs ih =>
    intro counts m
    rw [List.foldl_cons, ih, List.countP_cons]
    by_cases hm : t.transaction_date.month0 = m
    · simp [bumpMonth, hm, Nat.add_comm, Nat.add_assoc]
    · have : ¬ m = t.transaction_date.month0 := fun hc => hm hc.symm
      simp [bumpMonth, this, hm]

theorem countByMonth_countP (txs : List Transaction) (m : Fin 12) :
    countByMonth txs m = txs.countP (fun t => decide (t.transaction_date.month0 = m)) := by
  show txs.foldl (fun counts t => bumpMonth counts t.transaction_date.month0)
      (fun _ => 0) m = _
  rw [countByMonth_eq]
  omega

theorem countDebitByMonth_eq (txs : List Transaction) :
    ∀ (counts : Fin 12 → Nat) (m : Fin 12),
      txs.foldl
          (fun counts t =>
            if t.transaction_type == "debit" then
              bumpMonth counts t.transaction_date.month0
            else counts)
          counts m =
        counts m +
          txs.countP (fun t =>
            (t.transaction_type == "debit") && decide (t.transaction_date.month0 = m)) := by
  induction txs with
  | nil => intro counts m; simp
  | cons t txs ih =>
    intro counts m
    rw [List.foldl_cons, List.countP_cons]
    cases hd : t.transaction_type == "debit"
    · simp only [hd, Bool.false_eq_true, ite_false, Bool.false_and, ih]
      omega
    · simp only [hd, ite_true, ih, Bool.true_and]
      by_cases hm : t.transaction_date.month0 = m
      · simp [bumpMonth, hm]
        omega
      · have : ¬ m = t.transaction_date.month0 := fun hc => hm hc.symm
        simp [bumpMonth, this, hm]

theorem countDebitByMonth_countP (txs : List Transaction) (m : Fin 12) :
    countDebitByMonth txs m =
      txs.countP (fun t =>
        (t.transaction_type == "debit") && decide (t.transaction_date.month0 = m)) := by
  show txs.foldl _ (fun _ => 0) m = _
  rw [countDebitByMonth_eq]
  omega

theorem presentKeys_pairwise (counts : Fin 12 → Nat) :
    List.Pairwise (fun a b => a < b) (presentKeys counts) :=
  List.Pairwise.sublist (List.filter_sublist _) (by decide)

theorem mem_presentKeys (counts : Fin 12 → Nat) (m : Fin 12) :
    m ∈ presentKeys counts ↔ counts m ≠ 0 := by
  simp [presentKeys, List.mem_filter, List.mem_finRange]

/-- Invariant of the strict-greater-than selection loop over a strictly
ascending key list: the running maximum dominates every scanned bucket, and
when a bucket was ever selected, the final selection is a bucket whose count
strictly exceeds the initial maximum and strictly exceeds the count of every
key that precedes it in the scan. -/
theorem selectFold_spec (counts : Fin 12 → Nat) :
    ∀ (ks : List (Fin 12)) (b0 : Option (Fin 12)) (mx0 : Nat),
      List.Pairwise (fun a b => a < b) ks →
      (∀ m ∈ ks, counts m ≤ (ks.foldl (selectStep counts) (b0, mx0)).2) ∧
      mx0 ≤ (ks.foldl (selectStep counts) (b0, mx0)).2 ∧
      (ks.foldl (selectStep counts) (b0, mx0) = (b0, mx0) ∨
        ∃ m, m ∈ ks ∧ ks.foldl (selectStep counts) (b0, mx0) = (some m, counts m) ∧
          mx0 < counts m ∧ ∀ m' ∈ ks, m' < m → counts m' < counts m) := by
  intro ks
  induction ks with
  | nil => intro b0 mx0 _; simp
  | cons k ks ih =>
    intro b0 mx0 hpair
    have hk : ∀ m ∈ ks, k < m := (List.pairwise_cons.mp hpair).1
    have hpair' : List.Pairwise (fun a b => a < b) ks := (List.pairwise_cons.mp hpair).2
    by_cases h : counts k > mx0
    · have hstep : selectStep counts (b0, mx0) k = (some k, counts k) := by
        simp [selectStep, h]
      obtain ⟨iha, ihb, ihc⟩ := ih (some k) (counts k) hpair'
      rw [List.foldl_cons, hstep]
      refine ⟨?_, ?_, ?_⟩
      · intro m hm
        rcases List.mem_cons.mp hm with rfl | hm'
        · exact ihb
        · exact iha m hm'
      · exact le_trans (le_of_lt h) ihb
      · rcases ihc with heq | ⟨m, hmks, heq, hlt, hfirst⟩
        · refine Or.inr ⟨k, List.mem_cons_self k ks, heq, h, ?_⟩
          intro m' hm' hltm'
          rcases List.mem_cons.mp hm' with rfl | hm''
          · exact absurd hltm' (lt_irrefl _)
          · exact absurd hltm' (not_lt_of_lt (hk m' hm''))
        · refine Or.inr ⟨m, List.mem_cons_of_mem k hmks, heq, lt_trans h hlt, ?_⟩
          intro m' hm' hltm'
          rcases List.mem_cons.mp hm' with rfl | hm''
          · exact hlt
          · exact hfirst m' hm'' hltm'
    · have hle : counts k ≤ mx0 := le_of_not_lt h
      have hstep : selectStep counts (b0, mx0) k = (b0, mx0) := by
        simp [selectStep, h]
      obtain ⟨iha, ihb, ihc⟩ := ih b0 mx0 hpair'
      rw [List.foldl_cons, hstep]
      refine ⟨?_, ihb, ?_⟩
      · intro m hm
        rcases List.mem_cons.mp hm with rfl | hm'
        · exact le_trans hle ihb
        · exact iha m hm'
      · rcases ihc with heq | ⟨m, hmks, heq, hlt, hfirst⟩
        · exact Or.inl heq
        · refine Or.inr ⟨m, List.mem_cons_of_mem k hmks, heq, hlt, ?_⟩
          intro m' hm' hltm'
          rcases List.mem_cons.mp hm' with rfl | hm''
          · exact lt_of_le_of_lt hle hlt
          · exact hfirst m' hm'' hltm'

/-! ### First-seen deduplication -/

theorem specFirstSeen_cons (s : String) (l : List String) :
    specFirstSeen (s :: l) = s :: specFirstSeen (l.filter (fun x => x ≠ s)) := by
  rw [specFirstSeen]

theorem specFirstSeen_props_aux :
    ∀ (n : Nat) (l : List String), l.length ≤ n →
      List.Sublist (specFirstSeen l) l ∧ (specFirstSeen l).Nodup ∧
      ∀ x ∈ l, x ∈ specFirstSeen l := by
  intro n
  induction n with
  | zero =>
    intro l hl
    rw [List.length_eq_zero.mp (Nat.le_zero.mp hl)]
    simp [specFirstSeen]
  | succ n ih =>
    intro l hl
    cases l with
    | nil => simp [specFirstSeen]
    | cons s t =>
      have hlen : (t.filter (fun x => x ≠ s)).length ≤ n :=
        le_trans (List.length_filter_le _ _)
          (Nat.le_of_succ_le_succ (by simpa using hl))
      obtain ⟨hsub, hnodup, hmem⟩ := ih (t.filter (fun x => x ≠ s)) hlen
      rw [specFirstSeen_cons]
      refine ⟨?_, ?_, ?_⟩
      · exact List.Sublist.cons₂ s (hsub.trans (List.filter_sublist t))
      · rw [List.nodup_cons]
        refine ⟨fun hcon => ?_, hnodup⟩
        have := (List.mem_filter.mp (hsub.subset hcon)).2
        simp at this
      · intro x hx
        rcases List.mem_cons.mp hx with rfl | hx'
        · exact List.mem_cons_self _ _
        · by_cases hxs : x = s
          · rw [hxs]; exact List.mem_cons_self _ _
          · refine List.mem_cons_of_mem _ (hmem x ?_)
            rw [List.mem_filter]
            exact ⟨hx', by simp [hxs]⟩

theorem specFirstSeen_sublist (l : List String) :
    List.Sublist (specFirstSeen l) l :=
  (specFirstSeen_props_aux l.length l le_rfl).1

theorem specFirstSeen_nodup (l : List String) : (specFirstSeen l).Nodup :=
  (specFirstSeen_props_aux l.length l le_rfl).2.1

theorem mem_specFirstSeen (l : List String) (x : String) :
    x ∈ specFirstSeen l ↔ x ∈ l :=
  ⟨fun h => (specFirstSeen_sublist l).subset h,
   fun h => (specFirstSeen_props_aux l.length l le_rfl).2.2 x h⟩

/-- The `Set`-insertion fold of `getUniqueTransactionType`, run from any
accumulator, appends exactly the first-seen deduplication of the not-yet-seen
values. -/
theorem uniqueFold (l : List String) :
    ∀ acc : List String,
      l.foldl (fun a s => if s ∈ a then a else a ++ [s]) acc =
        acc ++ specFirstSeen (l.filter (fun x => ¬ x ∈ acc)) := by
  induction l with
  | nil => intro acc; simp [specFirstSeen]
  | cons s l ih =>
    intro acc
    by_cases hs : s ∈ acc
    · rw [List.foldl_cons, if_pos hs, ih]
      have : (s :: l).filter (fun x => ¬ x ∈ acc) = l.filter (fun x => ¬ x ∈ acc) := by
        rw [List.filter_cons]
        simp [hs]
      rw [← this]
    · rw [List.foldl_cons, if_neg hs, ih]
      have hfil : l.filter (fun x => ¬ x ∈ acc ++ [s]) =
          (l.filter (fun x => ¬ x ∈ acc)).filter (fun x => x ≠ s) := by
        rw [List.filter_filter]
        apply List.filter_congr
        intro x _
        by_cases h1 : x ∈ acc <;> by_cases h2 : x = s <;>
          simp [h1, h2]
      have hcons : (s :: l).filter (fun x => ¬ x ∈ acc) =
          s :: l.filter (fun x => ¬ x ∈ acc) := by
        rw [List.filter_cons]
        simp [hs]
      rw [hfil, hcons, specFirstSeen_cons, List.append_assoc, List.singleton_append]

theorem getUniqueTransactionType_eq (txs : List Transaction) :
    getUniqueTransactionType txs =
      specFirstSeen (txs.map (fun t => t.transaction_type)) := by
  show txs.foldl
      (fun uniqueTypes t =>
        if t.transaction_type ∈ uniqueTypes then uniqueTypes
        else uniqueTypes ++ [t.transaction_type]) [] = _
  rw [← List.foldl_map (fun t : Transaction => t.transaction_type)
    (fun a s => if s ∈ a then a else a ++ [s]) txs []]
  rw [uniqueFold]
  simp

/-! ### Sample records for witnesses and counterexamples -/

/-- A debit record dated 2019-01-14 with coercible amount 100. -/
def tx100 : Transaction :=
  { transaction_id := "1",
    transaction_date := { year := 2019, month0 := 0, day := 14, ts := 100 },
    transaction_amount := some 100,
    transaction_type := "debit",
    merchant_name := "SuperMart",
    transaction_description := "payment" }

/-- A credit record with coercible amount 50. -/
def tx50 : Transaction :=
  { transaction_id := "2",
    transaction_date := { year := 2019, month0 := 1, day := 15, ts := 200 },
    transaction_amount := some 50,
    transaction_type := "credit",
    merchant_name := "OnlineShop",
    transaction_description := "refund" }

/-- A record whose amount text does not coerce: `parseFloat` yields NaN. -/
def txNaN : Transaction :=
  { transaction_id := "3",
    transaction_date := { year := 2019, month0 := 2, day := 1, ts := 300 },
    transaction_amount := none,
    transaction_type := "credit",
    merchant_name := "Cafe",
    transaction_description := "lunch" }

/-! ### Claim theorems -/

/-- C8: `addTransaction` performs no validation and appends at the end:
appending any sequence of records to any ledger and reading the ledger back
with `getAllTransactions` yields the original records followed by the appended
records in append order, and the length grows by the number appended. -/
theorem C8_addTransaction_roundtrip (txs ns : List Transaction) :
    getAllTransactions (ns.foldl addTransaction txs) = txs ++ ns ∧
    (getAllTransactions (ns.foldl addTransaction txs)).length =
      txs.length + ns.length := by
  have h : ∀ (ns txs : List Transaction), ns.foldl addTransaction txs = txs ++ ns := by
    intro ns
    induction ns with
    | nil => intro txs; simp
    | cons n ns ih =>
      intro txs
      rw [List.foldl_cons, ih]
      simp [addTransaction]
  refine ⟨h ns txs, ?_⟩
  rw [getAllTransactions, h ns txs, List.length_append]

/-- C3 counterexample: invoked on a ledger instance distinct from the
process-global `analyzer` (here: an empty receiver while the global analyzer
holds one record of amount 100), `calculateTotalAmount()` returns the global
ledger's total `100`, while the claimed value — the receiver's debit total plus
its non-debit total — is `0`. -/
theorem C3_total_receiver_counterexample :
    calculateTotalAmount [] [tx100] = some 100 ∧
    jadd (calculateTotalDebitAmount [])
        (jsum ((([] : List Transaction).filter
          (fun t => !(t.transaction_type == "debit"))).map
            (fun t => t.transaction_amount))) = some 0 := by
  constructor
  · show List.foldl (fun tot t => jadd tot t.transaction_amount) (some 0) [tx100] =
      some 100
    simp [tx100, jadd]
  · simp [calculateTotalDebitAmount, jsum, jadd]

/-- C3 amended: `calculateTotalAmount()` sums the coerced amounts of the
process-global `analyzer` ledger regardless of the receiver, returning 0 when
that global ledger is empty; the decomposition `total = debit total + non-debit
total` holds whenever the receiver is the global analyzer instance (and, at the
level of record lists, for every list). -/
theorem C3_total_global_amended :
    (∀ selfTxs : List Transaction, calculateTotalAmount selfTxs [] = some 0) ∧
    (∀ selfTxs analyzerTxs : List Transaction,
      calculateTotalAmount selfTxs analyzerTxs =
        jsum (analyzerTxs.map (fun t => t.transaction_amount))) ∧
    (∀ txs : List Transaction,
      jsum (txs.map (fun t => t.transaction_amount)) =
        jadd (calculateTotalDebitAmount txs)
          (jsum ((txs.filter (fun t => !(t.transaction_type == "debit"))).map
            (fun t => t.transaction_amount)))) ∧
    (∀ txs : List Transaction,
      calculateTotalAmount txs txs =
        jadd (calculateTotalDebitAmount txs)
          (jsum ((txs.filter (fun t => !(t.transaction_type == "debit"))).map
            (fun t => t.transaction_amount)))) := by
  have htotal : ∀ selfTxs analyzerTxs : List Transaction,
      calculateTotalAmount selfTxs analyzerTxs =
        jsum (analyzerTxs.map (fun t => t.transaction_amount)) := by
    intro selfTxs analyzerTxs
    show analyzerTxs.foldl (fun tot t => jadd tot t.transaction_amount) (some 0) = _
    rw [foldl_amount, jadd_zero_left]
  have hdebit : ∀ txs : List Transaction,
      calculateTotalDebitAmount txs =
        jsum ((txs.filter (fun t => t.transaction_type == "debit")).map
          (fun t => t.transaction_amount)) := by
    intro txs
    show txs.foldl
        (fun tot t =>
          if t.transaction_type == "debit" then jadd tot t.transaction_amount
          else tot) (some 0) = _
    rw [foldl_amount_guard, jadd_zero_left]
  have hsplit : ∀ txs : List Transaction,
      jsum (txs.map (fun t => t.transaction_amount)) =
        jadd (calculateTotalDebitAmount txs)
          (jsum ((txs.filter (fun t => !(t.transaction_type == "debit"))).map
            (fun t => t.transaction_amount))) := by
    intro txs
    rw [hdebit]
    exact jsum_split (fun t => t.transaction_type == "debit")
      (fun t => t.transaction_amount) txs
  exact ⟨fun selfTxs => rfl, htotal, hsplit,
    fun txs => by rw [htotal txs txs]; exact hsplit txs⟩

/-- C6: the average is the guarded quotient: `0` on an empty ledger, and the
sum of the coerced amounts divided by the record count otherwise; one record of
amount 50 averages to 50. -/
theorem C6_average_amount :
    calculateAverageTransactionAmount [] = some 0 ∧
    (∀ txs : List Transaction, txs ≠ [] →
      (∀ t ∈ txs, t.transaction_amount ≠ none) →
      calculateAverageTransactionAmount txs =
        some ((((txs.map (fun t => t.transaction_amount)).filterMap id).sum) /
          (txs.length : ℚ))) ∧
    (∀ t : Transaction, t.transaction_amount = some 50 →
      calculateAverageTransactionAmount [t] = some 50) := by
  refine ⟨rfl, ?_, ?_⟩
  · intro txs hne hall
    have hlen : ¬ txs.length = 0 := fun h => hne (List.length_eq_zero.mp h)
    show (if txs.length = 0 then some 0
      else jdiv (txs.foldl (fun acc t => jadd acc t.transaction_amount) (some 0))
        txs.length) = _
    rw [if_neg hlen, foldl_amount, jadd_zero_left, jsum_eq_sum]
    · rfl
    · intro x hx
      obtain ⟨t, ht, rfl⟩ := List.mem_map.mp hx
      exact hall t ht
  · intro t ht
    show (if [t].length = 0 then some 0
      else jdiv ([t].foldl (fun acc t => jadd acc t.transaction_amount) (some 0))
        [t].length) = _
    simp [jdiv, ht, jadd]

/-- C6 witness: a concrete one-record ledger of amount 50 averages to 50. -/
theorem C6_average_amount_witness :
    calculateAverageTransactionAmount [tx50] = some 50 :=
  C6_average_amount.2.2 tx50 rfl

/-- C9: the date-range query returns exactly the records whose parsed date
timestamp lies in the inclusive interval, as a sublist of the ledger (ledger
order); when the start bound parses strictly after the end bound the result is
empty for every ledger. -/
theorem C9_date_range_inclusive (txs : List Transaction) (startTs endTs : Int) :
    (∀ t, t ∈ getTransactionsInDateRange txs startTs endTs ↔
      t ∈ txs ∧ startTs ≤ t.transaction_date.ts ∧ t.transaction_date.ts ≤ endTs) ∧
    List.Sublist (getTransactionsInDateRange txs startTs endTs) txs ∧
    (endTs < startTs → getTransactionsInDateRange txs startTs endTs = []) := by
  refine ⟨?_, List.filter_sublist _, ?_⟩
  · intro t
    simp [getTransactionsInDateRange, List.mem_filter]
  · intro h
    apply List.filter_eq_nil_iff.mpr
    intro t _
    simp only [Bool.and_eq_true, decide_eq_true_eq, not_and]
    intro h1 h2
    omega

/-- C9 witness: with start timestamp 5 after end timestamp 3, the result is
empty on a concrete one-record ledger. -/
theorem C9_date_range_inclusive_witness :
    getTransactionsInDateRange [tx100] 5 3 = [] :=
  (C9_date_range_inclusive [tx100] 5 3).2.2 (by norm_num)

/-- C10: with an orderly range (`min ≤ max`), no record whose amount fails
numeric coercion (NaN, modelled `none`) is ever included in the amount-range
result: the NaN amount satisfies neither inclusive bound comparison. -/
theorem C10_amount_range_excludes_nan (txs : List Transaction)
    (minAmount maxAmount : ℚ) (hle : minAmount ≤ maxAmount) :
    ∀ t ∈ getTransactionsByAmountRange txs minAmount maxAmount,
      t.transaction_amount ≠ none := by
  intro t ht hnone
  have hpred := (List.mem_filter.mp ht).2
  rw [hnone] at hpred
  simp [jsGeNum] at hpred

/-- C10 witness: on a concrete ledger holding a NaN-amount record and a
numeric record, the range query keeps only records with coercible amounts. -/
theorem C10_amount_range_excludes_nan_witness :
    (0 : ℚ) ≤ 200 ∧
    ∀ t ∈ getTransactionsByAmountRange [txNaN, tx100] 0 200,
      t.transaction_amount ≠ none :=
  ⟨by norm_num,
   C10_amount_range_excludes_nan [txNaN, tx100] 0 200 (by norm_num)⟩

/-- C7: `getUniqueTransactionType()` is exactly the first-seen deduplication of
the ledger's `type` values — duplicate-free, insertion-order-preserving — and
on a debit/credit/debit ledger it returns `["debit", "credit"]`. -/
theorem C7_unique_types_first_seen :
    (∀ txs : List Transaction,
      getUniqueTransactionType txs =
          specFirstSeen (txs.map (fun t => t.transaction_type)) ∧
        (getUniqueTransactionType txs).Nodup ∧
        ∀ s, s ∈ getUniqueTransactionType txs ↔
          s ∈ txs.map (fun t => t.transaction_type)) ∧
    (∀ t1 t2 t3 : Transaction, t1.transaction_type = "debit" →
      t2.transaction_type = "credit" → t3.transaction_type = "debit" →
      getUniqueTransactionType [t1, t2, t3] = ["debit", "credit"]) := by
  constructor
  · intro txs
    refine ⟨getUniqueTransactionType_eq txs, ?_, ?_⟩
    · rw [getUniqueTransactionType_eq]
      exact specFirstSeen_nodup _
    · intro s
      rw [getUniqueTransactionType_eq]
      exact mem_specFirstSeen _ s
  · intro t1 t2 t3 h1 h2 h3
    simp [getUniqueTransactionType, h1, h2, h3]

/-- C7 witness: a concrete debit/credit/debit ledger yields
`["debit", "credit"]`. -/
theorem C7_unique_types_first_seen_witness :
    getUniqueTransactionType [tx100, tx50, tx100] = ["debit", "credit"] :=
  C7_unique_types_first_seen.2 tx100 tx50 tx100 rfl rfl rfl

/-- C4: on a non-empty ledger, `findMostTransactionsMonth()` returns a
1-indexed month whose bucket count is maximal; among months tied for the
maximum, the one with the lowest 0-indexed month number — the first
encountered by the ascending-key bucket scan — wins, since the strict `>`
comparison never lets a tie overwrite the running maximum. -/
theorem C4_most_transactions_month (txs : List Transaction) (hne : txs ≠ []) :
    ∃ m : Fin 12,
      findMostTransactionsMonth txs = some ((m : Nat) + 1) ∧
      (∀ m' : Fin 12, countByMonth txs m' ≤ countByMonth txs m) ∧
      (∀ m' : Fin 12, m' < m → countByMonth txs m' < countByMonth txs m) := by
  obtain ⟨t, ht⟩ := List.exists_mem_of_ne_nil txs hne
  have hpos : countByMonth txs t.transaction_date.month0 ≠ 0 := by
    rw [countByMonth_countP]
    have h0 : 0 < txs.countP
        (fun t' => decide (t'.transaction_date.month0 = t.transaction_date.month0)) :=
      List.countP_pos_iff.mpr ⟨t, ht, by simp⟩
    omega
  obtain ⟨ha, hb, hcases⟩ :=
    selectFold_spec (countByMonth txs) (presentKeys (countByMonth txs)) none 0
      (presentKeys_pairwise _)
  rcases hcases with heq | ⟨m, hmks, heq, hlt, hfirst⟩
  · exfalso
    have hmem : t.transaction_date.month0 ∈ presentKeys (countByMonth txs) :=
      (mem_presentKeys _ _).mpr hpos
    have hle := ha _ hmem
    rw [heq] at hle
    exact hpos (Nat.le_zero.mp hle)
  · refine ⟨m, ?_, ?_, ?_⟩
    · show (selectMonth (countByMonth txs)).map (fun m => (m : Nat) + 1) = _
      rw [selectMonth, heq]
      rfl
    · intro m'
      by_cases hz : countByMonth txs m' = 0
      · rw [hz]; exact Nat.zero_le _
      · have hle := ha m' ((mem_presentKeys _ m').mpr hz)
        rw [heq] at hle
        exact hle
    · intro m' hm'
      by_cases hz : countByMonth txs m' = 0
      · rw [hz]; exact hlt
      · exact hfirst m' ((mem_presentKeys _ m').mpr hz) hm'

/-- C4 witness: a concrete one-record ledger (January record) selects January,
returned 1-indexed. -/
theorem C4_most_transactions_month_witness :
    ∃ m : Fin 12,
      findMostTransactionsMonth [tx100] = some ((m : Nat) + 1) ∧
      (∀ m' : Fin 12, countByMonth [tx100] m' ≤ countByMonth [tx100] m) ∧
      (∀ m' : Fin 12, m' < m → countByMonth [tx100] m' < countByMonth [tx100] m) :=
  C4_most_transactions_month [tx100] (List.cons_ne_nil _ _)

/-- C5: on an empty ledger the selection loop never fires, the selected month
stays `null`, and `parseInt(null) + 1` is NaN (`none`): the operation returns
an invalid non-numeric result rather than a month in `[1, 12]`; likewise for
`findMostDebitTransactionMonth` on a ledger without debit records. -/
theorem C5_empty_scan_returns_invalid :
    findMostTransactionsMonth ([] : List Transaction) = none ∧
    ∀ txs : List Transaction, (∀ t ∈ txs, t.transaction_type ≠ "debit") →
      findMostDebitTransactionMonth txs = none := by
  constructor
  · rfl
  · intro txs h
    have hcount : ∀ m : Fin 12, countDebitByMonth txs m = 0 := by
      intro m
      rw [countDebitByMonth_countP]
      apply List.countP_eq_zero.mpr
      intro t ht
      simp only [Bool.and_eq_true, beq_iff_eq, decide_eq_true_eq, not_and]
      intro hdebit
      exact absurd hdebit (h t ht)
    have hkeys : presentKeys (countDebitByMonth txs) = [] := by
      apply List.filter_eq_nil_iff.mpr
      intro m _
      simp [hcount m]
    show (selectMonth (countDebitByMonth txs)).map (fun m => (m : Nat) + 1) = none
    rw [selectMonth, hkeys]
    rfl

/-- C5 witness: a concrete credit-only ledger yields the invalid `none` result
from `findMostDebitTransactionMonth`. -/
theorem C5_empty_scan_returns_invalid_witness :
    findMostDebitTransactionMonth [tx50] = none :=
  C5_empty_scan_returns_invalid.2 [tx50] (by decide)

/-- When every supplied `month`/`day` argument lies in its documented range,
the bounds validation of `calculateTotalAmountByDate` does not fire. -/
theorem dateInvalid_false_of_inrange (month day : Option Int)
    (hm : month = none ∨ ∃ m, month = some m ∧ 1 ≤ m ∧ m ≤ 12)
    (hd : day = none ∨ ∃ d, day = some d ∧ 1 ≤ d ∧ d ≤ 31) :
    dateInvalid month day = false := by
  have h1 : jsLt month 1 = false := by
    rcases hm with rfl | ⟨m, rfl, hm1, _⟩
    · rfl
    · simp [jsLt]; omega
  have h2 : jsGt month 12 = false := by
    rcases hm with rfl | ⟨m, rfl, _, hm2⟩
    · rfl
    · simp [jsGt]; omega
  have h3 : jsLt day 1 = false := by
    rcases hd with rfl | ⟨d, rfl, hd1, _⟩
    · rfl
    · simp [jsLt]; omega
  have h4 : jsGt day 31 = false := by
    rcases hd with rfl | ⟨d, rfl, _, hd2⟩
    · rfl
    · simp [jsGt]; omega
  simp [dateInvalid, h1, h2, h3, h4]

/-- A supplied out-of-range `month` or `day` makes the bounds validation fire. -/
theorem dateInvalid_true_of_outrange (month day : Option Int)
    (h : (∃ m, month = some m ∧ (m < 1 ∨ 12 < m)) ∨
      (∃ d, day = some d ∧ (d < 1 ∨ 31 < d))) :
    dateInvalid month day = true := by
  rcases h with ⟨m, rfl, hm⟩ | ⟨d, rfl, hd⟩
  · rcases hm with hm | hm
    · have : jsLt (some m) 1 = true := by simp [jsLt]; omega
      simp [dateInvalid, this]
    · have : jsGt (some m) 12 = true := by simp [jsGt]; omega
      simp [dateInvalid, this]
  · rcases hd with hd | hd
    · have : jsLt (some d) 1 = true := by simp [jsLt]; omega
      simp [dateInvalid, this]
    · have : jsGt (some d) 31 = true := by simp [jsGt]; omega
      simp [dateInvalid, this]

/-- C1 counterexample: supplying `month = 0` is NOT a wildcard.  On a ledger
with one record dated 2019-01-14 of amount 100, the call with
`(year, month, day) = (2019, 0, 14)` trips the bounds validation
(`0 < 1`), reports the error and returns 0 — while the claim's wildcard
semantics (`specWildcardTotal`, under which month 0 matches any month) sums
the agreeing record's amount 100. -/
theorem C1_month_zero_counterexample :
    calculateTotalAmountByDate [tx100] (some 2019) (some 0) (some 14) =
      ⟨true, some 0⟩ ∧
    specWildcardTotal [tx100] (some 2019) (some 0) (some 14) = some 100 := by
  constructor
  · show (if dateInvalid (some 0) (some 14) then _ else _) = _
    have : dateInvalid (some 0) (some 14) = true :=
      dateInvalid_true_of_outrange _ _ (Or.inl ⟨0, rfl, Or.inl (by norm_num)⟩)
    rw [this]
    rfl
  · show jsum (([tx100].filter
      (fun t => isSameDate t.transaction_date (some 2019) (some 0) (some 14))).map
        (fun t => t.transaction_amount)) = some 100
    have hmatch : isSameDate tx100.transaction_date (some 2019) (some 0) (some 14) =
        true := by
      simp [isSameDate, tx100, jsFalsy]
    simp only [List.filter_cons, List.filter_nil, hmatch, ite_true]
    simp [tx100, jadd, jsum]

/-- C1 amended: the `year` component is a wildcard when absent or falsy
(including 0), but `month` and `day` are wildcards only when absent: a
supplied `month = 0` or `day = 0` trips the bounds validation and returns 0
with an error.  When the supplied month/day components are absent or in
range, the operation reports no error and sums the amounts of every record
whose date agrees with the non-wildcard components. -/
theorem C1_wildcard_amended (txs : List Transaction) (year month day : Option Int) :
    ((month = none ∨ ∃ m, month = some m ∧ 1 ≤ m ∧ m ≤ 12) →
     (day = none ∨ ∃ d, day = some d ∧ 1 ≤ d ∧ d ≤ 31) →
     calculateTotalAmountByDate txs year month day =
       ⟨false, specWildcardTotal txs year month day⟩) ∧
    ((month = some 0 ∨ day = some 0) →
     calculateTotalAmountByDate txs year month day = ⟨true, some 0⟩) := by
  constructor
  · intro hm hd
    have hval : dateInvalid month day = false := dateInvalid_false_of_inrange _ _ hm hd
    show (if dateInvalid month day then _ else _) = _
    rw [hval]
    show TotalByDateResult.mk false _ = _
    have hfold := foldl_amount_guard
      (fun t => isSameDate t.transaction_date year month day) txs (some 0)
    rw [hfold, jadd_zero_left]
    rfl
  · intro h
    have hval : dateInvalid month day = true := by
      apply dateInvalid_true_of_outrange
      rcases h with rfl | rfl
      · exact Or.inl ⟨0, rfl, Or.inl (by norm_num)⟩
      · exact Or.inr ⟨0, rfl, Or.inl (by norm_num)⟩
    show (if dateInvalid month day then _ else _) = _
    rw [hval]
    rfl

/-- C1 witness: with an absent month (a true wildcard) and in-range day, the
operation scans and sums the matching record: the concrete call
`(2019, undefined, 14)` on the one-record ledger returns 100 with no error. -/
theorem C1_wildcard_amended_witness :
    calculateTotalAmountByDate [tx100] (some 2019) none (some 14) =
      ⟨false, some 100⟩ := by
  have h := (C1_wildcard_amended [tx100] (some 2019) none (some 14)).1
    (Or.inl rfl) (Or.inr ⟨14, rfl, by norm_num, by norm_num⟩)
  rw [h]
  show TotalByDateResult.mk false
    (jsum (([tx100].filter
      (fun t => isSameDate t.transaction_date (some 2019) none (some 14))).map
        (fun t => t.transaction_amount))) = _
  have hmatch : isSameDate tx100.transaction_date (some 2019) none (some 14) =
      true := by
    simp [isSameDate, tx100, jsFalsy]
  simp only [List.filter_cons, List.filter_nil, hmatch, ite_true]
  simp [tx100, jadd, jsum]

/-- C2 counterexample: the validation is NOT restricted to truthy values.
`month = 0` is falsy, yet `calculateTotalAmountByDate` with month 0 reports
the bounds error (because `0 < 1`). -/
theorem C2_falsy_validation_counterexample :
    jsFalsy (some 0) = true ∧
    (calculateTotalAmountByDate [] none (some 0) none).errorReported = true := by
  constructor
  · rfl
  · show (if dateInvalid (some 0) none then
        TotalByDateResult.mk true (some 0)
      else _).errorReported = true
    have : dateInvalid (some 0) none = true :=
      dateInvalid_true_of_outrange _ _ (Or.inl ⟨0, rfl, Or.inl (by norm_num)⟩)
    rw [this]
    rfl

/-- C2 amended: the bounds are validated whenever `month` or `day` is supplied
as a number — including the falsy value 0 — not only for truthy values: a
supplied month outside `[1,12]` or day outside `[1,31]` reports an error and
returns 0 identically for every ledger (no record is scanned), and when every
supplied component is in range (in particular for all in-range truthy
components) no error is reported. -/
theorem C2_validation_amended (txs : List Transaction) (year month day : Option Int) :
    (((∃ m, month = some m ∧ (m < 1 ∨ 12 < m)) ∨
      (∃ d, day = some d ∧ (d < 1 ∨ 31 < d))) →
     calculateTotalAmountByDate txs year month day = ⟨true, some 0⟩) ∧
    ((month = none ∨ ∃ m, month = some m ∧ 1 ≤ m ∧ m ≤ 12) →
     (day = none ∨ ∃ d, day = some d ∧ 1 ≤ d ∧ d ≤ 31) →
     (calculateTotalAmountByDate txs year month day).errorReported = false) := by
  constructor
  · intro h
    have hval : dateInvalid month day = true := dateInvalid_true_of_outrange _ _ h
    show (if dateInvalid month day then _ else _) = _
    rw [hval]
    rfl
  · intro hm hd
    have hval : dateInvalid month day = false := dateInvalid_false_of_inrange _ _ hm hd
    show (if dateInvalid month day then TotalByDateResult.mk true (some 0)
      else _).errorReported = false
    rw [hval]
    rfl

/-- C2 witness: the spec's example call `(0, 13, 1)` (invalid month 13) on a
concrete one-record ledger reports the error and returns 0. -/
theorem C2_validation_amended_witness :
    calculateTotalAmountByDate [tx100] (some 0) (some 13) (some 1) =
      ⟨true, some 0⟩ :=
  (C2_validation_amended [tx100] (some 0) (some 13) (some 1)).1
    (Or.inl ⟨13, rfl, Or.inr (by norm_num)⟩)
